import Mathlib

/-!
Shallow embedding of the zentel pipeline core (`pipeline/etl.py`):
the normalizer (`clean_tickets`), the enricher (`enrich_tickets`), the
SLA calculator (`compute_sla_metrics`) and the KPI aggregator
(`manager_operator_performance`), together with theorems checking the
specification's claims about them.

Modelling conventions:
- a cell is `Option String` (`none` = pandas NaN / missing marker);
- timestamps that survived parsing are `Option ℚ` (epoch seconds);
  durations and averages are `ℚ`, `none` modelling a NaN float;
- pandas-specific behaviours (NaN truthiness, merge suffix defaults,
  `split(expand=True)` padding, `groupby` dropping NaN keys, `count`
  skipping NaN) are modelled explicitly and noted where they occur.
-/

/-- Python `str(x)` applied to a possibly-missing cell: `str(nan) = "nan"`. -/
def astypeStr : Option String → String
  | none => "nan"
  | some s => s

/-- The `row.get("ticket_status", "")` followed by `str(...)`: a NaN cell prints
as `"nan"`; an absent column would give `""`.  Neither lower-cases into the
`completed`/`closed` set, so collapsing both into `astypeStr` is faithful for
every comparison the code performs. -/
def statusStr (s : Option String) : String := astypeStr s

/-- One input row of `compute_sla_metrics` (the fields the function reads). -/
structure SlaRow where
  ticket_open_time : Option ℚ
  ticket_resp_time : Option ℚ
  issue_res_time : Option ℚ
  ticket_status : Option String
deriving DecidableEq

/-- The `secs(a, b)`: `(a - b).total_seconds()`, NaN if either side is NaT. -/
def secs : Option ℚ → Option ℚ → Option ℚ
  | some a, some b => some (a - b)
  | some _, none => none
  | none, _ => none

/-- One output row of `compute_sla_metrics`: the input row plus the new
columns the function assigns. -/
structure SlaOut where
  row : SlaRow
  response_seconds : Option ℚ
  resolution_seconds : Option ℚ
  resolution_minutes : Option ℚ
  response_sla_pass : Bool
  resolution_sla_pass : Bool
  escalation : Bool
  resolution_category : String
deriving DecidableEq

/-- The `category` helper of `compute_sla_metrics`, clause for clause. -/
def slaCategory : Option ℚ → String
  | none => "Unknown"
  | some m =>
    if m < 30 then "Less Than 30 Mins"
    else if 30 ≤ m ∧ m < 60 then "30Mins - 1 hour"
    else if 60 ≤ m ∧ m ≤ 180 then "1 hour - 3 hours"
    else "Greater than 3 hours"

/-- The `escalation` helper: `resolution_minutes` present and `> 180`, or
status (lower-cased) in `("completed", "closed")` with `issue_res_time`
missing. -/
def escalationFlag (r : SlaRow) (rm : Option ℚ) : Bool :=
  (match rm with
   | some m => decide (m > 180)
   | none => false)
  || (decide ((statusStr r.ticket_status).toLower ∈
        (["completed", "closed"] : List String)) && r.issue_res_time.isNone)

/-- The `compute_sla_metrics`, per row: durations, pass flags, escalation and
category exactly as the source assigns them. -/
def computeSlaRow (r : SlaRow) : SlaOut :=
  let rs := secs r.ticket_resp_time r.ticket_open_time
  let qs := secs r.issue_res_time r.ticket_resp_time
  let rm := qs.map (fun x => x / 60)
  ⟨r, rs, qs, rm,
   (match rs with
    | some x => decide (x ≤ 10)
    | none => false),
   (match rm with
    | some x => decide (x ≤ 180)
    | none => false),
   escalationFlag r rm,
   slaCategory rm⟩

/-- The `compute_sla_metrics` over the whole table; an empty input maps to the
empty output, matching the early `if df is None or df.empty` return. -/
def compute_sla_metrics (l : List SlaRow) : List SlaOut :=
  l.map computeSlaRow

/-- A concrete ticket: response 5 s after opening, resolved 60 s after the
response (1 minute), no status. -/
def rEx : SlaRow := ⟨some 0, some 5, some 65, none⟩

/-- A concrete ticket marked "Closed" with no resolution timestamp. -/
def rEsc : SlaRow := ⟨some 0, some 0, none, some "Closed"⟩

/-- A concrete ticket whose response and resolution timestamps precede their
predecessors (reversed clock). -/
def rRev : SlaRow := ⟨some 100, some 40, some (-20), none⟩

/-- One input row of `manager_operator_performance` (the columns it reads).
`operator`/`manager` are `Option` because a merged frame can carry NaN there;
pandas `groupby` silently drops NaN keys. -/
structure KpiRow where
  operator : Option String
  manager : Option String
  report_id : Option String
  response_seconds : Option ℚ
  resolution_minutes : Option ℚ
  response_sla_pass : Bool
deriving DecidableEq

/-- pandas `count` aggregation: number of non-NaN entries. -/
def pdCount (xs : List (Option String)) : ℕ := (xs.filterMap id).length

/-- pandas `mean` aggregation (default `skipna=True`): NaN when no non-missing
value exists. -/
def pdMean (xs : List (Option ℚ)) : Option ℚ :=
  let vs := xs.filterMap id
  if vs.length = 0 then none else some (vs.sum / vs.length)

/-- Python float truthiness: NaN and every nonzero value are truthy, `0.0` is
falsy.  (`bool(float("nan"))` is `True` — the root of the `or 0.0` slip.) -/
def pyTruthy : Option ℚ → Bool
  | none => true
  | some x => decide (x ≠ 0)

/-- Python `v or 0.0`: keeps `v` whenever `v` is truthy — so NaN survives. -/
def pyOrZero (v : Option ℚ) : Option ℚ := if pyTruthy v then v else some 0

/-- Python `round` to an integer with banker's (half-to-even) rounding. -/
def roundHalfEven (q : ℚ) : ℤ :=
  if q - ⌊q⌋ < 1 / 2 then ⌊q⌋
  else if 1 / 2 < q - ⌊q⌋ then ⌊q⌋ + 1
  else if ⌊q⌋ % 2 = 0 then ⌊q⌋ else ⌊q⌋ + 1

/-- Python `round(x, n)` on a possibly-NaN float; `round(nan, n)` is NaN.
The binary-float representation error of CPython floats is not modelled, and
no result below depends on a rounded value other than at exact inputs. -/
def pyRound (n : ℕ) (v : Option ℚ) : Option ℚ :=
  v.map (fun x => (roundHalfEven (x * 10 ^ n) : ℚ) / 10 ^ n)

/-- The rows of one operator group: `groupby("operator")` collects the rows
whose key equals `k`; NaN keys belong to no group. -/
def opGroup (rows : List KpiRow) (k : String) : List KpiRow :=
  rows.filter (fun r => r.operator == some k)

/-- The group keys `groupby("operator")` produces (NaN dropped); pandas sorts
them, but no claim depends on their order. -/
def operatorKeys (rows : List KpiRow) : List String :=
  (rows.filterMap (fun r => r.operator)).dedup

/-- The rows of one manager group. -/
def mgrGroup (rows : List KpiRow) (k : String) : List KpiRow :=
  rows.filter (fun r => r.manager == some k)

/-- The group keys `groupby("manager")` produces (NaN dropped). -/
def managerKeys (rows : List KpiRow) : List String :=
  (rows.filterMap (fun r => r.manager)).dedup

/-- One entry of the `operators` mapping. -/
structure OpKpi where
  total_tickets : ℕ
  avg_response_seconds : Option ℚ
  avg_resolution_minutes : Option ℚ
  sla_pass_rate : Option ℚ
deriving DecidableEq

/-- One entry of the `managers` mapping (no pass rate at this level). -/
structure MgrKpi where
  total_tickets : ℕ
  avg_response_seconds : Option ℚ
  avg_resolution_minutes : Option ℚ
deriving DecidableEq

/-- The `sla_pass_rate` aggfunc: `float(x.sum()) / len(x)` for a nonempty
group, else `0.0`. -/
def passRate (g : List KpiRow) : ℚ :=
  if 0 < g.length then ((g.filter (fun r => r.response_sla_pass)).length : ℚ) / g.length
  else 0

/-- The operator KPI record built for key `k`: `count` of `report_id`, means
of the two duration columns pushed through `round(v or 0.0, 2)`, and the pass
rate pushed through `round(v or 0.0, 3)`. -/
def operatorKpi (rows : List KpiRow) (k : String) : OpKpi :=
  let g := opGroup rows k
  ⟨pdCount (g.map (fun r => r.report_id)),
   pyRound 2 (pyOrZero (pdMean (g.map (fun r => r.response_seconds)))),
   pyRound 2 (pyOrZero (pdMean (g.map (fun r => r.resolution_minutes)))),
   pyRound 3 (pyOrZero (some (passRate g)))⟩

/-- The manager KPI record built for key `k`. -/
def managerKpi (rows : List KpiRow) (k : String) : MgrKpi :=
  let g := mgrGroup rows k
  ⟨pdCount (g.map (fun r => r.report_id)),
   pyRound 2 (pyOrZero (pdMean (g.map (fun r => r.response_seconds)))),
   pyRound 2 (pyOrZero (pdMean (g.map (fun r => r.resolution_minutes))))⟩

/-- The nested result `{"operators": ..., "managers": ...}`. -/
structure KpiOut where
  operators : List (String × OpKpi)
  managers : List (String × MgrKpi)
deriving DecidableEq

/-- The `manager_operator_performance`: empty input short-circuits to two empty
mappings; the `managers` mapping is built only when a `manager` column exists
(`hasManagerCol`). -/
def manager_operator_performance (hasManagerCol : Bool) (rows : List KpiRow) :
    KpiOut :=
  if rows.isEmpty then ⟨[], []⟩
  else
    ⟨(operatorKeys rows).map (fun k => (k, operatorKpi rows k)),
     if hasManagerCol then (managerKeys rows).map (fun k => (k, managerKpi rows k))
     else []⟩

/-- A ticket whose durations are both NaN (e.g. unparsed timestamps). -/
def kRowNaN : KpiRow := ⟨some "A", some "M", some "r1", none, none, false⟩

/-- A ticket whose operator matched no employee: its `manager` cell is NaN. -/
def kRowNoMgr : KpiRow := ⟨some "B", none, some "r2", none, none, false⟩

/-- A two-row input: one row with a manager, one with a NaN manager. -/
def kRows9 : List KpiRow := [kRowNaN, kRowNoMgr]

/-- Python single-character `str.split`, accumulator style: splitting the
empty string gives `[""]`, adjacent separators give empty segments, exactly
like `"a--b".split("-") == ["a", "", "b"]`. -/
def splitCharsAux (sep : Char) : List Char → List Char → List (List Char)
  | acc, [] => [acc.reverse]
  | acc, c :: cs =>
    if c = sep then acc.reverse :: splitCharsAux sep [] cs
    else splitCharsAux sep (c :: acc) cs

/-- Python `s.split(sep)` for a one-character separator. -/
def pySplit (s : String) (sep : Char) : List String :=
  (splitCharsAux sep [] s.data).map List.asString

/-- Python `str.strip()` (no argument): drop leading and trailing whitespace.
Only ASCII-style whitespace (`Char.isWhitespace`) is modelled. -/
def pyStrip (s : String) : String :=
  List.asString (((s.data.dropWhile Char.isWhitespace).reverse.dropWhile
    Char.isWhitespace).reverse)

/-- Python `str.lower()` (ASCII case mapping). -/
def pyLower (s : String) : String := List.asString (s.data.map Char.toLower)

/-- Python `s.replace(" ", "_")`: for a one-character pattern this is a
character-wise map. -/
def pyReplaceSpace (s : String) : String :=
  List.asString (s.data.map (fun c => if c = ' ' then '_' else c))

/-- The column-name canonicalization `s.strip().lower().replace(" ", "_")`
applied by `clean_tickets` and before every reference join. -/
def canonName (s : String) : String := pyReplaceSpace (pyLower (pyStrip s))

/-- A pandas DataFrame: named columns and rows of string-typed cells
(`none` = NaN).  Well-formedness (`Table.Wf`) says every row has one cell per
column. -/
structure Table where
  cols : List String
  rows : List (List (Option String))
deriving DecidableEq

/-- Every row has exactly one cell per column. -/
def Table.Wf (t : Table) : Prop := ∀ r ∈ t.rows, r.length = t.cols.length

/-- The `pd.DataFrame()`. -/
def Table.emptyDf : Table := ⟨[], []⟩

/-- pandas `df.empty`: true when either axis has length zero. -/
def Table.isEmptyDf (t : Table) : Bool := t.rows.isEmpty || t.cols.isEmpty

/-- The `df.rename(columns=lambda s: s.strip().lower().replace(" ", "_"))`. -/
def Table.canonCols (t : Table) : Table := ⟨t.cols.map canonName, t.rows⟩

/-- Index of the first column with the given name (`df["c"]` resolution). -/
def Table.colIdx (t : Table) (c : String) : Option ℕ :=
  t.cols.findIdx? (fun x => x == c)

/-- The cell list of column index `i`. -/
def Table.colVals (t : Table) (i : ℕ) : List (Option String) :=
  t.rows.map (fun r => r.getD i none)

/-- The `df["c"]` as an optional cell list (`none` when the column is absent). -/
def Table.getCol (t : Table) (c : String) : Option (List (Option String)) :=
  (t.colIdx c).map t.colVals

/-- The `df["c"] = values`: overwrite the column in place if it exists, else
append it on the right, exactly pandas' column-assignment placement. -/
def Table.setCol (t : Table) (c : String) (vs : List (Option String)) : Table :=
  match t.colIdx c with
  | some i => ⟨t.cols, List.zipWith (fun r v => r.set i v) t.rows vs⟩
  | none => ⟨t.cols ++ [c], List.zipWith (fun r v => r ++ [v]) t.rows vs⟩

/-- The four timestamp columns `clean_tickets` parses, in source order. -/
def timeCols : List String :=
  ["ticket_open_time", "ticket_resp_time", "issue_res_time", "ticket_close_time"]

/-- The per-column datetime-parsing pass: `df[col] = df[col].apply(parse_dt)`
for each designated column that is present.  `parse_dt` itself (format
fallback over raw strings) is passed in as an opaque cell transform; no claim
below depends on its behaviour. -/
def parseStep (parseDt : Option String → Option String) (d : Table)
    (c : String) : Table :=
  match d.colIdx c with
  | some i => d.setCol c ((d.colVals i).map parseDt)
  | none => d

def parseTimeCols (parseDt : Option String → Option String) (t : Table) : Table :=
  timeCols.foldl (parseStep parseDt) t

/-- The cell transform of `df["operator"].replace("", np.nan).fillna("UNKNOWN")`:
an empty or missing operator becomes the sentinel. -/
def opFill : Option String → Option String
  | none => some "UNKNOWN"
  | some s => if s = "" then some "UNKNOWN" else some s

/-- The operator-defaulting step of `clean_tickets`: fill the existing column,
or create an all-`UNKNOWN` column when it is absent. -/
def fillOperator (t : Table) : Table :=
  match t.colIdx "operator" with
  | some i => t.setCol "operator" ((t.colVals i).map opFill)
  | none => t.setCol "operator" (List.replicate t.rows.length (some "UNKNOWN"))

/-- The number of columns `str.split("-", expand=True)` produces: the maximum
segment count over the column. -/
def maxSegs (ids : List String) : ℕ :=
  (ids.map (fun s => (pySplit s '-').length)).foldr max 0

/-- The `df["report_id"].str.split("-", expand=True).iloc[:, -1].fillna("")`:
pandas pads each row's segment list with `None` up to the maximum segment
count, `iloc[:, -1]` reads the last padded position, and `fillna("")` turns
the padding into the empty string. -/
def splitExpandLast (ids : List String) : List String :=
  let m := maxSegs ids
  ids.map (fun s =>
    let ps := pySplit s '-'
    ((ps.map some ++ List.replicate (m - ps.length) none).getD (m - 1) none).getD "")

/-- The report-id step of `clean_tickets`: trim `report_id` (via `astype(str)`,
so NaN prints as "nan") and derive `service_code` from the trimmed values; an
absent `report_id` column yields an all-empty `service_code`. -/
def deriveServiceCode (t : Table) : Table :=
  match t.colIdx "report_id" with
  | some i =>
    let ids := (t.colVals i).map (fun c => pyStrip (astypeStr c))
    (t.setCol "report_id" (ids.map some)).setCol "service_code"
      ((splitExpandLast ids).map some)
  | none => t.setCol "service_code" (List.replicate t.rows.length (some ""))

/-- The `clean_tickets`: empty input short-circuits; otherwise canonicalize the
column names, parse the timestamp columns, default the operator and derive
the service code, in source order. -/
def clean_tickets (parseDt : Option String → Option String) (t : Table) : Table :=
  if t.isEmptyDf then Table.emptyDf
  else deriveServiceCode (fillOperator (parseTimeCols parseDt t.canonCols))

/-- A one-row raw table whose operator cell is the empty string. -/
def tOp : Table := ⟨["Operator"], [[some ""]]⟩

/-- A one-row table whose `report_id` has no `-` separator. -/
def tC3 : Table := ⟨["report_id"], [[some "ABC"]]⟩

/-- pandas left merge `L.merge(R, left_on=<key values>, right_on=rightOn,
suffixes=(ls, rs))`, with the left key supplied as a value list (the code
passes either a column's values or a derived Series).  Missing `rightOn`
raises a `KeyError` (modelled as `.error`).  Each left row is kept once per
matching right row, or once with NaN padding when nothing matches; pandas
matches NaN keys to NaN keys.  Colliding column names get the left/right
suffix on their respective side; when `left_on` and `right_on` name the same
column (`dropRightKey`), pandas keeps a single key column, so the right key
is dropped before the collision check. -/
def Table.mergeE (L : Table) (leftKey : List (Option String)) (R : Table)
    (rightOn : String) (ls rs : String) (dropRightKey : Bool) :
    Except String Table :=
  match R.colIdx rightOn with
  | none => .error ("KeyError: " ++ rightOn)
  | some j =>
    let rkept := if dropRightKey then R.cols.eraseIdx j else R.cols
    let lcols := L.cols.map (fun c => if rkept.contains c then c ++ ls else c)
    let rcols := rkept.map (fun c => if L.cols.contains c then c ++ rs else c)
    let newRows := (L.rows.zip leftKey).flatMap (fun p =>
      let ms := R.rows.filter (fun rr => rr.getD j none == p.2)
      if ms.isEmpty then [p.1 ++ List.replicate rkept.length none]
      else ms.map (fun rr => p.1 ++ (if dropRightKey then rr.eraseIdx j else rr)))
    .ok ⟨lcols ++ rcols, newRows⟩

/-- The `else` branch when the employee table is absent or empty: synthesize
the four NaN reference columns. -/
def naEmpCols (df : Table) : Table :=
  let d1 := df.setCol "employee_id" (List.replicate df.rows.length none)
  let d2 := d1.setCol "manager_id" (List.replicate d1.rows.length none)
  let d3 := d2.setCol "designation" (List.replicate d2.rows.length none)
  d3.setCol "manager" (List.replicate d3.rows.length none)

/-- The employee join: canonicalize the employee columns, build the
lower-cased name keys on both sides and merge with suffixes `("", "_emp")`.
`emp.get("employee_name", "")` on a missing column yields the plain string
`""`, so the following `.astype(str)` raises `AttributeError`; a missing
ticket `operator` raises `KeyError` at `df["operator"]`. -/
def empJoin (df : Table) (employees : Option Table) : Except String Table :=
  match employees with
  | none => .ok (naEmpCols df)
  | some e =>
    if e.isEmptyDf then .ok (naEmpCols df)
    else
      let emp := e.canonCols
      match emp.colIdx "employee_name" with
      | none => .error "AttributeError: str object has no attribute astype"
      | some j =>
        let emp1 := emp.setCol "employee_name_lc"
          ((emp.colVals j).map (fun c => some (pyLower (astypeStr c))))
        match df.colIdx "operator" with
        | none => .error "KeyError: operator"
        | some i =>
          let key := (df.colVals i).map (fun c => some (pyLower (astypeStr c)))
          (df.setCol "operator_lc" key).mergeE key emp1 "employee_name_lc"
            "" "_emp" false

/-- The channel join: `left_on="report_channel"`, `right_on="channel_key"`,
no `suffixes` argument, so the pandas defaults `("_x", "_y")` apply. -/
def channelJoin (df : Table) (channel : Option Table) : Except String Table :=
  match channel with
  | none => .ok df
  | some c =>
    if c.isEmptyDf then .ok df
    else
      match df.colIdx "report_channel" with
      | none => .error "KeyError: report_channel"
      | some i => df.mergeE (df.colVals i) c.canonCols "channel_key" "_x" "_y" false

/-- The service-type join: both keys are named `service_code`, so pandas
keeps a single key column; suffixes `("", "_service")`. -/
def serviceJoin (df : Table) (service_type : Option Table) : Except String Table :=
  match service_type with
  | none => .ok df
  | some s =>
    if s.isEmptyDf then .ok df
    else
      match df.colIdx "service_code" with
      | none => .error "KeyError: service_code"
      | some i => df.mergeE (df.colVals i) s.canonCols "service_code" "" "_service" true

/-- The fault-type join: the left key is the derived Series
`df.get("fault_type", "").str.strip()`.  When `fault_type` is absent,
`df.get` returns the plain string `""` and `.str` raises `AttributeError`;
otherwise `.str.strip()` trims each present cell (NaN stays NaN).  No
`suffixes` argument, so the defaults `("_x", "_y")` apply. -/
def faultJoin (df : Table) (fault_type : Option Table) : Except String Table :=
  match fault_type with
  | none => .ok df
  | some f =>
    if f.isEmptyDf then .ok df
    else
      match df.colIdx "fault_type" with
      | none => .error "AttributeError: str object has no attribute str"
      | some i =>
        df.mergeE ((df.colVals i).map (fun c => c.map pyStrip)) f.canonCols
          "fault" "_x" "_y" false

/-- The location join: both keys are named `state_key`; suffixes
`("", "_loc")`. -/
def locationJoin (df : Table) (location : Option Table) : Except String Table :=
  match location with
  | none => .ok df
  | some l =>
    if l.isEmptyDf then .ok df
    else
      match df.colIdx "state_key" with
      | none => .error "KeyError: state_key"
      | some i => df.mergeE (df.colVals i) l.canonCols "state_key" "" "_loc" true

/-- The `enrich_tickets`: empty or absent ticket table short-circuits to an empty
frame; otherwise the five reference joins run in source order, any raised
exception propagating as `.error`. -/
def enrich_tickets (tickets employees channel service_type fault_type location :
    Option Table) : Except String Table :=
  match tickets with
  | none => .ok Table.emptyDf
  | some t =>
    if t.isEmptyDf then .ok Table.emptyDf
    else do
      let d1 ← empJoin t employees
      let d2 ← channelJoin d1 channel
      let d3 ← serviceJoin d2 service_type
      let d4 ← faultJoin d3 fault_type
      locationJoin d4 location

/-- A ticket table without a `fault_type` column. -/
def tTik2 : Table := ⟨["report_id"], [[some "r1"]]⟩

/-- A non-empty fault-type reference table. -/
def tFault2 : Table := ⟨["Fault"], [[some "X"]]⟩

/-- A ticket table sharing the column name `extra` with the channel table. -/
def tTik8 : Table := ⟨["report_channel", "extra"], [[some "CH1", some "v"]]⟩

/-- A channel table whose `extra` column collides with the ticket table. -/
def tCh8 : Table := ⟨["Channel Key", "extra"], [[some "CH1", some "w"]]⟩

lemma computeSlaRow_row (r : SlaRow) : (computeSlaRow r).row = r := rfl

lemma computeSlaRow_response_seconds (r : SlaRow) :
    (computeSlaRow r).response_seconds = secs r.ticket_resp_time r.ticket_open_time := rfl

lemma computeSlaRow_resolution_minutes (r : SlaRow) :
    (computeSlaRow r).resolution_minutes =
      (secs r.issue_res_time r.ticket_resp_time).map (fun x => x / 60) := rfl

lemma computeSlaRow_response_sla_pass (r : SlaRow) :
    (computeSlaRow r).response_sla_pass =
      (match secs r.ticket_resp_time r.ticket_open_time with
       | some x => decide (x ≤ 10)
       | none => false) := rfl

lemma computeSlaRow_resolution_sla_pass (r : SlaRow) :
    (computeSlaRow r).resolution_sla_pass =
      (match ((secs r.issue_res_time r.ticket_resp_time).map (fun x => x / 60) : Option ℚ) with
       | some x => decide (x ≤ 180)
       | none => false) := rfl

lemma computeSlaRow_escalation (r : SlaRow) :
    (computeSlaRow r).escalation =
      escalationFlag r ((secs r.issue_res_time r.ticket_resp_time).map (fun x => x / 60)) := rfl

lemma computeSlaRow_resolution_category (r : SlaRow) :
    (computeSlaRow r).resolution_category =
      slaCategory ((secs r.issue_res_time r.ticket_resp_time).map (fun x => x / 60)) := rfl

lemma mem_compute_sla_metrics {l : List SlaRow} {o : SlaOut}
    (ho : o ∈ compute_sla_metrics l) : ∃ r, r ∈ l ∧ computeSlaRow r = o :=
  List.mem_map.mp ho

/-- Claim C6. For every output row, `response_sla_pass` is true iff
`response_seconds` is present and at most 10 (false when missing or above 10),
and `resolution_sla_pass` is true iff `resolution_minutes` is present and at
most 180. -/
theorem claim6_sla_pass_flags (l : List SlaRow) (o : SlaOut)
    (ho : o ∈ compute_sla_metrics l) :
    (o.response_sla_pass = true ↔ ∃ x, o.response_seconds = some x ∧ x ≤ 10)
    ∧ (o.response_seconds = none → o.response_sla_pass = false)
    ∧ (∀ x, o.response_seconds = some x → 10 < x → o.response_sla_pass = false)
    ∧ (o.resolution_sla_pass = true ↔ ∃ x, o.resolution_minutes = some x ∧ x ≤ 180) := by
  obtain ⟨r, -, rfl⟩ := mem_compute_sla_metrics ho
  rw [computeSlaRow_response_sla_pass, computeSlaRow_response_seconds,
    computeSlaRow_resolution_sla_pass, computeSlaRow_resolution_minutes]
  refine ⟨?_, ?_, ?_, ?_⟩
  · cases secs r.ticket_resp_time r.ticket_open_time <;> simp
  · intro h; rw [h]
  · intro x hx h10
    rw [hx]; simpa using not_le.mpr h10
  · cases (secs r.issue_res_time r.ticket_resp_time).map (fun x => x / 60) <;> simp

/-- Claim C4. Output `resolution_category` is "Unknown" iff `resolution_minutes`
is missing; for a present value the four buckets are exactly `< 30`,
`[30, 60)`, `[60, 180]` (exactly 180 included here) and `> 180`. -/
theorem claim4_resolution_category (l : List SlaRow) (o : SlaOut)
    (ho : o ∈ compute_sla_metrics l) :
    (o.resolution_category = "Unknown" ↔ o.resolution_minutes = none)
    ∧ (∀ m, o.resolution_minutes = some m →
        ((o.resolution_category = "Less Than 30 Mins" ↔ m < 30)
        ∧ (o.resolution_category = "30Mins - 1 hour" ↔ 30 ≤ m ∧ m < 60)
        ∧ (o.resolution_category = "1 hour - 3 hours" ↔ 60 ≤ m ∧ m ≤ 180)
        ∧ (o.resolution_category = "Greater than 3 hours" ↔ 180 < m))) := by
  obtain ⟨r, -, rfl⟩ := mem_compute_sla_metrics ho
  rw [computeSlaRow_resolution_category, computeSlaRow_resolution_minutes]
  cases hm : (secs r.issue_res_time r.ticket_resp_time).map (fun x => x / 60) with
  | none => simp [slaCategory]
  | some m =>
    have hcat : slaCategory (some m) =
        if m < 30 then "Less Than 30 Mins"
        else if 30 ≤ m ∧ m < 60 then "30Mins - 1 hour"
        else if 60 ≤ m ∧ m ≤ 180 then "1 hour - 3 hours"
        else "Greater than 3 hours" := rfl
    refine ⟨by rw [hcat]; split_ifs <;> simp, ?_⟩
    rintro m' hm'
    obtain rfl : m = m' := by simpa using hm'
    rw [hcat]
    split_ifs with h1 h2 h3
    · refine ⟨by simpa using h1, ?_, ?_, ?_⟩
      · simp only [String.reduceEq, false_iff]
        push_neg
        intro h
        linarith
      · simp only [String.reduceEq, false_iff]
        push_neg
        intro h
        linarith
      · simp only [String.reduceEq, false_iff]
        linarith
    · obtain ⟨h2a, h2b⟩ := h2
      refine ⟨?_, by simp [h2a, h2b], ?_, ?_⟩
      · simp only [String.reduceEq, false_iff]
        linarith
      · simp only [String.reduceEq, false_iff]
        push_neg
        intro h
        linarith
      · simp only [String.reduceEq, false_iff]
        linarith
    · obtain ⟨h3a, h3b⟩ := h3
      refine ⟨?_, ?_, by simp [h3a, h3b], ?_⟩
      · simp only [String.reduceEq, false_iff]
        linarith
      · simp only [String.reduceEq, false_iff]
        push_neg
        intro h
        linarith
      · simp only [String.reduceEq, false_iff]
        linarith
    · push_neg at h1 h2 h3
      have hm60 : 60 ≤ m := h2 h1
      have hm180 : 180 < m := h3 hm60
      refine ⟨?_, ?_, ?_, by simpa using hm180⟩
      · simp only [String.reduceEq, false_iff]
        linarith
      · simp only [String.reduceEq, false_iff]
        push_neg
        intro h
        linarith
      · simp only [String.reduceEq, false_iff]
        push_neg
        intro h
        linarith

/-- Claim C5. Output `escalation` is true iff `resolution_minutes` is present
and strictly above 180, or the lower-cased ticket status is "completed" or
"closed" while `issue_res_time` is missing; a row with missing resolution
time and a status outside that set never escalates. -/
theorem claim5_escalation (l : List SlaRow) (o : SlaOut)
    (ho : o ∈ compute_sla_metrics l) :
    (o.escalation = true ↔
      ((∃ m, o.resolution_minutes = some m ∧ 180 < m)
       ∨ ((statusStr o.row.ticket_status).toLower ∈ (["completed", "closed"] : List String)
           ∧ o.row.issue_res_time = none)))
    ∧ (o.resolution_minutes = none →
        (statusStr o.row.ticket_status).toLower ∉ (["completed", "closed"] : List String) →
        o.escalation = false) := by
  obtain ⟨r, -, rfl⟩ := mem_compute_sla_metrics ho
  rw [computeSlaRow_escalation, computeSlaRow_resolution_minutes, computeSlaRow_row]
  unfold escalationFlag
  constructor
  · rw [Bool.or_eq_true, Bool.and_eq_true, decide_eq_true_iff,
      Option.isNone_iff_eq_none]
    cases (secs r.issue_res_time r.ticket_resp_time).map (fun x => x / 60) <;> simp
  · intro hnone hst
    rw [hnone]
    simp [hst]

/-- Claim C10. No guard against reversed timestamps: a present response time
strictly before the open time gives a negative `response_seconds` and
`response_sla_pass = true`; a negative `resolution_minutes` gives
`resolution_sla_pass = true` and category "Less Than 30 Mins". -/
theorem claim10_reversed_timestamps (l : List SlaRow) (o : SlaOut)
    (ho : o ∈ compute_sla_metrics l) :
    (∀ a b, o.row.ticket_resp_time = some a → o.row.ticket_open_time = some b →
      a < b →
      o.response_seconds = some (a - b) ∧ a - b < 0 ∧ o.response_sla_pass = true)
    ∧ (∀ m, o.resolution_minutes = some m → m < 0 →
      o.resolution_sla_pass = true ∧ o.resolution_category = "Less Than 30 Mins") := by
  obtain ⟨r, -, rfl⟩ := mem_compute_sla_metrics ho
  constructor
  · intro a b ha hb hab
    rw [computeSlaRow_row] at ha hb
    rw [computeSlaRow_response_seconds, computeSlaRow_response_sla_pass,
      ha, hb]
    refine ⟨rfl, by linarith, ?_⟩
    simp only [secs]
    rw [decide_eq_true_iff]
    linarith
  · intro m hm hneg
    rw [computeSlaRow_resolution_minutes] at hm
    rw [computeSlaRow_resolution_sla_pass, computeSlaRow_resolution_category, hm]
    have hcat : slaCategory (some m) =
        if m < 30 then "Less Than 30 Mins"
        else if 30 ≤ m ∧ m < 60 then "30Mins - 1 hour"
        else if 60 ≤ m ∧ m ≤ 180 then "1 hour - 3 hours"
        else "Greater than 3 hours" := rfl
    refine ⟨by rw [decide_eq_true_iff]; linarith, ?_⟩
    rw [hcat, if_pos (by linarith : m < 30)]

theorem claim4_resolution_category_witness :
    (computeSlaRow rEx).resolution_category = "Unknown" ↔
      (computeSlaRow rEx).resolution_minutes = none :=
  (claim4_resolution_category [rEx] (computeSlaRow rEx)
    (by simp [compute_sla_metrics])).1

theorem claim5_escalation_witness :
    (computeSlaRow rEsc).escalation = true ↔
      ((∃ m, (computeSlaRow rEsc).resolution_minutes = some m ∧ 180 < m)
       ∨ ((statusStr (computeSlaRow rEsc).row.ticket_status).toLower ∈
            (["completed", "closed"] : List String)
           ∧ (computeSlaRow rEsc).row.issue_res_time = none)) :=
  (claim5_escalation [rEsc] (computeSlaRow rEsc)
    (by simp [compute_sla_metrics])).1

theorem claim6_sla_pass_flags_witness :
    (computeSlaRow rEx).response_sla_pass = true ↔
      ∃ x, (computeSlaRow rEx).response_seconds = some x ∧ x ≤ 10 :=
  (claim6_sla_pass_flags [rEx] (computeSlaRow rEx)
    (by simp [compute_sla_metrics])).1

theorem claim10_reversed_timestamps_witness :
    (computeSlaRow rRev).response_seconds = some (40 - 100)
    ∧ (40 : ℚ) - 100 < 0
    ∧ (computeSlaRow rRev).response_sla_pass = true :=
  (claim10_reversed_timestamps [rRev] (computeSlaRow rRev)
    (by simp [compute_sla_metrics])).1 40 100 rfl rfl (by norm_num)

/-- Claim C1. At a group with no non-missing duration values the claimed result
is `0.0`, but the code returns NaN: `row[...] or 0.0` keeps NaN because NaN
is truthy, so both averages are the missing marker (`none`), not `0.0`. -/
theorem claim1_kpi_mean_nan_at_failing_input :
    (manager_operator_performance true [kRowNaN]).operators =
      [("A", (⟨1, none, none, some 0⟩ : OpKpi))]
    ∧ (manager_operator_performance true [kRowNaN]).managers =
      [("M", (⟨1, none, none⟩ : MgrKpi))] := by
  have hop : (manager_operator_performance true [kRowNaN]).operators
      = [("A", operatorKpi [kRowNaN] "A")] := rfl
  have hmg : (manager_operator_performance true [kRowNaN]).managers
      = [("M", managerKpi [kRowNaN] "M")] := rfl
  rw [hop, hmg]
  constructor
  · norm_num [operatorKpi, opGroup, kRowNaN, pdCount, pdMean, pyRound, pyOrZero,
      pyTruthy, passRate, roundHalfEven, List.filterMap_cons, List.filterMap_nil]
  · norm_num [managerKpi, mgrGroup, kRowNaN, pdCount, pdMean, pyRound, pyOrZero,
      pyTruthy, List.filterMap_cons, List.filterMap_nil]

/-- Claim C9. A row with a NaN `manager` belongs to no manager group (pandas
`groupby` drops NaN keys) while still belonging to its operator group, and on
a concrete input the manager `total_tickets` sum to strictly fewer than the
input rows. -/
theorem claim9_missing_manager_excluded (rows : List KpiRow) (r : KpiRow)
    (hr : r ∈ rows) (hm : r.manager = none) :
    (∀ k, k ∈ managerKeys rows → r ∉ mgrGroup rows k)
    ∧ (∀ op, r.operator = some op → r ∈ opGroup rows op)
    ∧ (((manager_operator_performance true kRows9).managers.map
          (fun p => p.2.total_tickets)).sum < kRows9.length) := by
  refine ⟨?_, ?_, ?_⟩
  · intro k _ hcon
    rw [mgrGroup, List.mem_filter] at hcon
    rw [hm] at hcon
    simpa using hcon.2
  · intro op hop
    rw [opGroup, List.mem_filter]
    exact ⟨hr, by simp [hop]⟩
  · decide

theorem claim9_missing_manager_excluded_witness :
    (∀ k, k ∈ managerKeys kRows9 → kRowNoMgr ∉ mgrGroup kRows9 k)
    ∧ (∀ op, kRowNoMgr.operator = some op → kRowNoMgr ∈ opGroup kRows9 op)
    ∧ (((manager_operator_performance true kRows9).managers.map
          (fun p => p.2.total_tickets)).sum < kRows9.length) :=
  claim9_missing_manager_excluded kRows9 kRowNoMgr (by simp [kRows9]) rfl

lemma Table.colIdx_lt {t : Table} {c : String} {i : ℕ} (h : t.colIdx c = some i) :
    i < t.cols.length :=
  (List.findIdx?_eq_some_iff_getElem.mp h).1

lemma Table.colIdx_getElem {t : Table} {c : String} {i : ℕ} (h : t.colIdx c = some i) :
    ∃ hi : i < t.cols.length, t.cols[i] = c := by
  obtain ⟨hi, hp, -⟩ := List.findIdx?_eq_some_iff_getElem.mp h
  exact ⟨hi, by simpa using hp⟩

lemma Table.colIdx_none {t : Table} {c : String} (h : t.colIdx c = none) :
    c ∉ t.cols := by
  rw [Table.colIdx, List.findIdx?_eq_none_iff] at h
  intro hc
  simpa using h c hc

lemma zipWith_set_getD_self (rows : List (List (Option String)))
    (vs : List (Option String)) (i : ℕ) (hlen : rows.length = vs.length)
    (hrows : ∀ r ∈ rows, i < r.length) :
    (List.zipWith (fun r v => r.set i v) rows vs).map (fun r => r.getD i none)
      = vs := by
  induction rows generalizing vs with
  | nil =>
    cases vs
    · simp
    · simp at hlen
  | cons r rs ih =>
    cases vs with
    | nil => simp at hlen
    | cons v vs' =>
      simp only [List.zipWith_cons_cons, List.map_cons]
      have hi : i < r.length := hrows r (by simp)
      congr 1
      · rw [List.getD_eq_getElem?_getD, List.getElem?_set]
        simp [hi]
      · exact ih vs' (by simpa using hlen) (fun r hr => hrows r (by simp [hr]))

lemma zipWith_set_getD_ne (rows : List (List (Option String)))
    (vs : List (Option String)) (i j : ℕ) (hij : i ≠ j)
    (hlen : rows.length = vs.length) :
    (List.zipWith (fun r v => r.set i v) rows vs).map (fun r => r.getD j none)
      = rows.map (fun r => r.getD j none) := by
  induction rows generalizing vs with
  | nil => simp
  | cons r rs ih =>
    cases vs with
    | nil => simp at hlen
    | cons v vs' =>
      simp only [List.zipWith_cons_cons, List.map_cons]
      congr 1
      · rw [List.getD_eq_getElem?_getD, List.getElem?_set, if_neg hij,
          List.getD_eq_getElem?_getD]
      · exact ih vs' (by simpa using hlen)

lemma zipWith_append_getD_last (rows : List (List (Option String)))
    (vs : List (Option String)) (n : ℕ) (hlen : rows.length = vs.length)
    (hrows : ∀ r ∈ rows, r.length = n) :
    (List.zipWith (fun r v => r ++ [v]) rows vs).map (fun r => r.getD n none)
      = vs := by
  induction rows generalizing vs with
  | nil =>
    cases vs
    · simp
    · simp at hlen
  | cons r rs ih =>
    cases vs with
    | nil => simp at hlen
    | cons v vs' =>
      simp only [List.zipWith_cons_cons, List.map_cons]
      have hr : r.length = n := hrows r (by simp)
      congr 1
      · rw [List.getD_eq_getElem?_getD, List.getElem?_append, if_neg (by omega)]
        simp [hr]
      · exact ih vs' (by simpa using hlen) (fun r hr => hrows r (by simp [hr]))

lemma zipWith_append_getD_lt (rows : List (List (Option String)))
    (vs : List (Option String)) (j n : ℕ) (hj : j < n)
    (hlen : rows.length = vs.length) (hrows : ∀ r ∈ rows, r.length = n) :
    (List.zipWith (fun r v => r ++ [v]) rows vs).map (fun r => r.getD j none)
      = rows.map (fun r => r.getD j none) := by
  induction rows generalizing vs with
  | nil => simp
  | cons r rs ih =>
    cases vs with
    | nil => simp at hlen
    | cons v vs' =>
      simp only [List.zipWith_cons_cons, List.map_cons]
      have hr : r.length = n := hrows r (by simp)
      congr 1
      · rw [List.getD_eq_getElem?_getD, List.getElem?_append,
          if_pos (by omega), List.getD_eq_getElem?_getD]
      · exact ih vs' (by simpa using hlen) (fun r hr => hrows r (by simp [hr]))

lemma Table.setCol_rows_length {t : Table} {c : String} {vs : List (Option String)}
    (hlen : vs.length = t.rows.length) :
    (t.setCol c vs).rows.length = t.rows.length := by
  unfold Table.setCol
  cases t.colIdx c <;> simp [List.length_zipWith, hlen]

lemma Table.setCol_wf {t : Table} (hwf : t.Wf) {c : String}
    {vs : List (Option String)} : (t.setCol c vs).Wf := by
  unfold Table.setCol
  cases h : t.colIdx c with
  | some i =>
    intro r hr
    rw [List.mem_iff_getElem] at hr
    obtain ⟨k, hk, rfl⟩ := hr
    rw [List.getElem_zipWith]
    have hk1 : k < t.rows.length := by
      rw [List.length_zipWith] at hk
      omega
    simpa using hwf _ (List.getElem_mem hk1)
  | none =>
    intro r hr
    rw [List.mem_iff_getElem] at hr
    obtain ⟨k, hk, rfl⟩ := hr
    rw [List.getElem_zipWith]
    have hk1 : k < t.rows.length := by
      rw [List.length_zipWith] at hk
      omega
    simpa using hwf _ (List.getElem_mem hk1)

lemma Table.setCol_getCol_self {t : Table} (hwf : t.Wf) {c : String}
    {vs : List (Option String)} (hlen : vs.length = t.rows.length) :
    (t.setCol c vs).getCol c = some vs := by
  unfold Table.setCol
  cases h : t.colIdx c with
  | some i =>
    show (Table.getCol ⟨t.cols, _⟩ c) = some vs
    rw [Table.getCol]
    have : Table.colIdx ⟨t.cols, List.zipWith (fun r v => r.set i v) t.rows vs⟩ c
        = some i := h
    rw [this]
    simp only [Option.map_some']
    congr 1
    rw [Table.colVals]
    exact zipWith_set_getD_self t.rows vs i hlen.symm
      (fun r hr => by rw [hwf r hr]; exact Table.colIdx_lt h)
  | none =>
    show (Table.getCol ⟨t.cols ++ [c], _⟩ c) = some vs
    rw [Table.getCol]
    have hidx : Table.colIdx ⟨t.cols ++ [c],
        List.zipWith (fun r v => r ++ [v]) t.rows vs⟩ c
        = some t.cols.length := by
      have h0 : List.findIdx? (fun x => x == c) t.cols = none := h
      rw [Table.colIdx, List.findIdx?_append, h0]
      simp [List.findIdx?_cons]
    rw [hidx]
    simp only [Option.map_some']
    congr 1
    rw [Table.colVals]
    exact zipWith_append_getD_last t.rows vs t.cols.length hlen.symm hwf

lemma Table.setCol_getCol_ne {t : Table} (hwf : t.Wf) {c c' : String}
    {vs : List (Option String)} (hne : c' ≠ c)
    (hlen : vs.length = t.rows.length) :
    (t.setCol c vs).getCol c' = t.getCol c' := by
  unfold Table.setCol
  cases h : t.colIdx c with
  | some i =>
    show (Table.getCol ⟨t.cols, _⟩ c') = t.getCol c'
    rw [Table.getCol, Table.getCol]
    have hsame : Table.colIdx ⟨t.cols, List.zipWith (fun r v => r.set i v) t.rows vs⟩ c'
        = t.colIdx c' := rfl
    rw [hsame]
    cases h' : t.colIdx c' with
    | none => simp
    | some j =>
      simp only [Option.map_some']
      congr 1
      have hij : i ≠ j := by
        intro rfl_ij
        obtain ⟨hi1, hci⟩ := Table.colIdx_getElem h
        obtain ⟨hj1, hcj⟩ := Table.colIdx_getElem h'
        subst rfl_ij
        exact hne (hcj.symm.trans hci)
      rw [Table.colVals, Table.colVals]
      exact zipWith_set_getD_ne t.rows vs i j hij hlen.symm
  | none =>
    show (Table.getCol ⟨t.cols ++ [c], _⟩ c') = t.getCol c'
    rw [Table.getCol, Table.getCol]
    have hidx : Table.colIdx ⟨t.cols ++ [c],
        List.zipWith (fun r v => r ++ [v]) t.rows vs⟩ c'
        = t.colIdx c' := by
      rw [Table.colIdx, List.findIdx?_append]
      have h2 : List.findIdx? (fun x => x == c') [c] = none := by
        simp [List.findIdx?_cons]
        exact fun hcc => hne hcc.symm
      show (List.findIdx? (fun x => x == c') t.cols).or _ = _
      rw [h2]
      simp [Table.colIdx]
    rw [hidx]
    cases h' : t.colIdx c' with
    | none => simp
    | some j =>
      simp only [Option.map_some']
      congr 1
      obtain ⟨hj1, -⟩ := Table.colIdx_getElem h'
      rw [Table.colVals, Table.colVals]
      exact zipWith_append_getD_lt t.rows vs j t.cols.length
        (by omega) hlen.symm hwf

lemma Table.colVals_length (t : Table) (i : ℕ) :
    (t.colVals i).length = t.rows.length := by
  simp [Table.colVals]

lemma Table.canonCols_wf {t : Table} (hwf : t.Wf) : t.canonCols.Wf := by
  intro r hr
  simpa [Table.canonCols] using hwf r hr

lemma parseStep_cols (parseDt : Option String → Option String) (d : Table)
    (c : String) : (parseStep parseDt d c).cols = d.cols := by
  unfold parseStep
  cases h : d.colIdx c with
  | some i => simp [Table.setCol, h]
  | none => rfl

lemma parseStep_rows_length (parseDt : Option String → Option String)
    (d : Table) (c : String) :
    (parseStep parseDt d c).rows.length = d.rows.length := by
  unfold parseStep
  cases h : d.colIdx c with
  | some i => exact Table.setCol_rows_length (by simp [Table.colVals])
  | none => rfl

lemma parseStep_wf (parseDt : Option String → Option String) {d : Table}
    (hwf : d.Wf) (c : String) : (parseStep parseDt d c).Wf := by
  unfold parseStep
  cases h : d.colIdx c with
  | some i => exact Table.setCol_wf hwf
  | none => exact hwf

lemma parseStep_getCol_ne (parseDt : Option String → Option String) {d : Table}
    (hwf : d.Wf) {c c' : String} (hne : c' ≠ c) :
    (parseStep parseDt d c).getCol c' = d.getCol c' := by
  unfold parseStep
  cases h : d.colIdx c with
  | some i => exact Table.setCol_getCol_ne hwf hne (by simp [Table.colVals])
  | none => rfl

lemma parseFold_invariant (parseDt : Option String → Option String)
    (L : List String) (t : Table) (hwf : t.Wf) :
    (L.foldl (parseStep parseDt) t).rows.length = t.rows.length
    ∧ (L.foldl (parseStep parseDt) t).Wf
    ∧ (∀ c', c' ∉ L → (L.foldl (parseStep parseDt) t).getCol c' = t.getCol c') := by
  induction L generalizing t with
  | nil => exact ⟨rfl, hwf, fun _ _ => rfl⟩
  | cons c L' ih =>
    obtain ⟨hlen, hwf', hget⟩ := ih (parseStep parseDt t c) (parseStep_wf parseDt hwf c)
    refine ⟨?_, hwf', ?_⟩
    · simpa [parseStep_rows_length] using hlen
    · intro c' hc'
      have h1 : c' ≠ c := fun hc => hc' (by simp [hc])
      have h2 : c' ∉ L' := fun hc => hc' (by simp [hc])
      rw [List.foldl_cons, hget c' h2, parseStep_getCol_ne parseDt hwf h1]

lemma fillOperator_getCol_operator {t : Table} (hwf : t.Wf) :
    (fillOperator t).getCol "operator"
      = some (match t.getCol "operator" with
        | some cells => cells.map opFill
        | none => List.replicate t.rows.length (some "UNKNOWN")) := by
  unfold fillOperator
  cases h : t.colIdx "operator" with
  | some i =>
    have hget : t.getCol "operator" = some (t.colVals i) := by
      rw [Table.getCol, h]
      rfl
    rw [hget]
    exact Table.setCol_getCol_self hwf (by simp [Table.colVals])
  | none =>
    have hget : t.getCol "operator" = none := by
      rw [Table.getCol, h]
      rfl
    rw [hget]
    exact Table.setCol_getCol_self hwf (by simp)

lemma fillOperator_getCol_ne {t : Table} (hwf : t.Wf) {c' : String}
    (hne : c' ≠ "operator") :
    (fillOperator t).getCol c' = t.getCol c' := by
  unfold fillOperator
  cases h : t.colIdx "operator" with
  | some i => exact Table.setCol_getCol_ne hwf hne (by simp [Table.colVals])
  | none => exact Table.setCol_getCol_ne hwf hne (by simp)

lemma fillOperator_rows_length (t : Table) :
    (fillOperator t).rows.length = t.rows.length := by
  unfold fillOperator
  cases h : t.colIdx "operator" with
  | some i => exact Table.setCol_rows_length (by simp [Table.colVals])
  | none => exact Table.setCol_rows_length (by simp)

lemma fillOperator_wf {t : Table} (hwf : t.Wf) : (fillOperator t).Wf := by
  unfold fillOperator
  cases h : t.colIdx "operator" with
  | some i => exact Table.setCol_wf hwf
  | none => exact Table.setCol_wf hwf

lemma splitExpandLast_length (ids : List String) :
    (splitExpandLast ids).length = ids.length := by
  simp [splitExpandLast]

lemma deriveServiceCode_getCol_sc {t : Table} (hwf : t.Wf) :
    (deriveServiceCode t).getCol "service_code"
      = some (match t.getCol "report_id" with
        | some cells =>
          (splitExpandLast (cells.map (fun c => pyStrip (astypeStr c)))).map some
        | none => List.replicate t.rows.length (some "")) := by
  unfold deriveServiceCode
  cases h : t.colIdx "report_id" with
  | some i =>
    have hget : t.getCol "report_id" = some (t.colVals i) := by
      rw [Table.getCol, h]
      rfl
    rw [hget]
    have hlen1 : (((t.colVals i).map (fun c => pyStrip (astypeStr c))).map some).length
        = t.rows.length := by
      simp [Table.colVals]
    exact Table.setCol_getCol_self (Table.setCol_wf hwf)
      (by rw [Table.setCol_rows_length hlen1]
          simp [splitExpandLast_length, Table.colVals])
  | none =>
    have hget : t.getCol "report_id" = none := by
      rw [Table.getCol, h]
      rfl
    rw [hget]
    exact Table.setCol_getCol_self hwf (by simp)

lemma deriveServiceCode_getCol_operator {t : Table} (hwf : t.Wf) :
    (deriveServiceCode t).getCol "operator" = t.getCol "operator" := by
  unfold deriveServiceCode
  cases h : t.colIdx "report_id" with
  | some i =>
    have hlen1 : (((t.colVals i).map (fun c => pyStrip (astypeStr c))).map some).length
        = t.rows.length := by
      simp [Table.colVals]
    rw [Table.setCol_getCol_ne (Table.setCol_wf hwf)
      (by decide : ("operator" : String) ≠ "service_code")
      (by rw [Table.setCol_rows_length hlen1]
          simp [splitExpandLast_length, Table.colVals])]
    exact Table.setCol_getCol_ne hwf
      (by decide : ("operator" : String) ≠ "report_id") hlen1
  | none =>
    exact Table.setCol_getCol_ne hwf
      (by decide : ("operator" : String) ≠ "service_code") (by simp)

lemma Table.getCol_length {t : Table} {c : String} {cells : List (Option String)}
    (h : t.getCol c = some cells) : cells.length = t.rows.length := by
  rw [Table.getCol] at h
  cases hidx : t.colIdx c with
  | none =>
    rw [hidx] at h
    simp at h
  | some i =>
    rw [hidx] at h
    simp only [Option.map_some', Option.some.injEq] at h
    rw [← h]
    simp [Table.colVals]

lemma opFill_nonempty (c : Option String) : ∃ s, opFill c = some s ∧ s ≠ "" := by
  cases c with
  | none => exact ⟨"UNKNOWN", rfl, by decide⟩
  | some s =>
    by_cases hs : s = ""
    · exact ⟨"UNKNOWN", by simp [opFill, hs], by decide⟩
    · exact ⟨s, by simp [opFill, hs], hs⟩

/-- Claim C7. After `clean_tickets` on any well-formed non-empty raw table, the
`operator` column exists, has one cell per input row, every cell is a
non-empty string, the cells are the input cells pushed through the
fill rule (`opFill`), empty or missing cells become `UNKNOWN`, and an absent
column yields all-`UNKNOWN`. -/
theorem claim7_operator_never_empty (parseDt : Option String → Option String)
    (t : Table) (hwf : t.Wf) (hne : t.isEmptyDf = false) :
    ∃ vs, (clean_tickets parseDt t).getCol "operator" = some vs
      ∧ vs = (match t.canonCols.getCol "operator" with
              | some cells => cells.map opFill
              | none => List.replicate t.rows.length (some "UNKNOWN"))
      ∧ vs.length = t.rows.length
      ∧ (∀ v ∈ vs, ∃ s, v = some s ∧ s ≠ "")
      ∧ (∀ c, (c = none ∨ c = some "") → opFill c = some "UNKNOWN") := by
  have hwf0 : t.canonCols.Wf := Table.canonCols_wf hwf
  obtain ⟨hlenP, hwfP, hgetP⟩ := parseFold_invariant parseDt timeCols t.canonCols hwf0
  have hopu : (parseTimeCols parseDt t.canonCols).getCol "operator"
      = t.canonCols.getCol "operator" := hgetP "operator" (by decide)
  have hru : (parseTimeCols parseDt t.canonCols).rows.length = t.rows.length := hlenP
  have hkey : (clean_tickets parseDt t).getCol "operator"
      = some (match t.canonCols.getCol "operator" with
        | some cells => cells.map opFill
        | none => List.replicate t.rows.length (some "UNKNOWN")) := by
    rw [clean_tickets, if_neg (by simp [hne])]
    simp only [parseTimeCols]
    rw [deriveServiceCode_getCol_operator (fillOperator_wf hwfP)]
    rw [fillOperator_getCol_operator hwfP]
    rw [hgetP "operator" (by decide), hlenP]
    rfl
  refine ⟨_, hkey, rfl, ?_, ?_, ?_⟩
  · cases hcol : t.canonCols.getCol "operator" with
    | none => simp
    | some cells =>
      have h1 : cells.length = t.rows.length :=
        @Table.getCol_length t.canonCols "operator" cells hcol
      simpa using h1
  · cases hcol : t.canonCols.getCol "operator" with
    | none =>
      intro v hv
      rw [List.eq_of_mem_replicate hv]
      exact ⟨"UNKNOWN", rfl, by decide⟩
    | some cells =>
      intro v hv
      obtain ⟨c, -, rfl⟩ := List.mem_map.mp hv
      exact opFill_nonempty c
  · intro c hc
    rcases hc with rfl | rfl
    · rfl
    · simp [opFill]

theorem claim7_operator_never_empty_witness :
    ∃ vs, (clean_tickets (fun v => v) tOp).getCol "operator" = some vs
      ∧ vs = (match tOp.canonCols.getCol "operator" with
              | some cells => cells.map opFill
              | none => List.replicate tOp.rows.length (some "UNKNOWN"))
      ∧ vs.length = tOp.rows.length
      ∧ (∀ v ∈ vs, ∃ s, v = some s ∧ s ≠ "")
      ∧ (∀ c, (c = none ∨ c = some "") → opFill c = some "UNKNOWN") :=
  claim7_operator_never_empty (fun v => v) tOp
    (by unfold Table.Wf; decide) (by decide)

lemma le_foldr_max (l : List ℕ) (x : ℕ) (hx : x ∈ l) : x ≤ l.foldr max 0 := by
  induction l with
  | nil => simp at hx
  | cons a l' ih =>
    rcases List.mem_cons.mp hx with rfl | hx'
    · exact le_max_left _ _
    · exact le_trans (ih hx') (le_max_right _ _)

lemma le_maxSegs {ids : List String} {s : String} (hs : s ∈ ids) :
    (pySplit s '-').length ≤ maxSegs ids :=
  le_foldr_max _ _ (List.mem_map_of_mem (fun s => (pySplit s '-').length) hs)

/-- Pointwise value of the `expand=True` service-code derivation: the row's
last segment when its segment count equals the table maximum, the empty
string otherwise. -/
lemma splitExpandLast_getD (ids : List String) (i : ℕ) (hi : i < ids.length) :
    (splitExpandLast ids).getD i ""
      = (if (pySplit (ids.getD i "") '-').length = maxSegs ids
         then (pySplit (ids.getD i "") '-').getLastD "" else "") := by
  rw [List.getD_eq_getElem _ _ hi]
  rw [List.getD_eq_getElem?_getD]
  simp only [splitExpandLast]
  rw [List.getElem?_map, List.getElem?_eq_getElem hi]
  simp only [Option.map_some', Option.getD_some]
  have hle : (pySplit ids[i] '-').length ≤ maxSegs ids :=
    le_maxSegs (List.getElem_mem hi)
  show ((List.map some (pySplit ids[i] '-')
      ++ List.replicate (maxSegs ids - (pySplit ids[i] '-').length) none).getD
        (maxSegs ids - 1) none).getD ""
    = _
  by_cases hcase : (pySplit ids[i] '-').length = maxSegs ids
  · rw [if_pos hcase]
    have hrep : maxSegs ids - (pySplit ids[i] '-').length = 0 := by omega
    rw [hrep]
    simp only [List.replicate_zero, List.append_nil]
    rcases Nat.eq_zero_or_pos (maxSegs ids) with hm0 | hmpos
    · have hnil : pySplit ids[i] '-' = [] := by
        rw [← List.length_eq_zero]
        omega
      rw [hnil]
      simp
    · have hidx : maxSegs ids - 1 < (List.map some (pySplit ids[i] '-')).length := by
        simp only [List.length_map]
        omega
      rw [List.getD_eq_getElem _ _ hidx, List.getElem_map]
      have hlast : (pySplit ids[i] '-').getLastD ""
          = (pySplit ids[i] '-').getD (maxSegs ids - 1) "" := by
        rw [List.getLastD_eq_getLast?, List.getLast?_eq_getElem?,
          List.getD_eq_getElem?_getD, hcase]
      rw [hlast, List.getD_eq_getElem _ _ (by omega)]
      rfl
  · rw [if_neg hcase]
    have hlt2 : (pySplit ids[i] '-').length < maxSegs ids := by omega
    rw [List.getD_eq_getElem?_getD, List.getElem?_append,
      if_neg (by simp only [List.length_map]; omega)]
    rw [List.getElem?_replicate, if_pos (by simp only [List.length_map]; omega)]
    rfl

/-- Claim C3 (counterexample). On a single-row table whose `report_id` `"ABC"`
contains no separator, `service_code` is the whole `"ABC"`, not the empty
string the claim requires. -/
theorem claim3_service_code_counterexample :
    (clean_tickets (fun v => v) tC3).getCol "service_code" = some [some "ABC"]
    ∧ (clean_tickets (fun v => v) tC3).getCol "service_code" ≠ some [some ""] := by
  constructor
  · decide
  · decide

/-- Claim C3 (amended). With the `report_id` column present, `service_code` for
row `i` is the last segment of the trimmed id exactly when the row's segment
count equals the table-wide maximum (`expand=True` pads shorter rows and
`iloc[:, -1]` reads the maximal position), and the empty string otherwise;
with the column absent every row gets the empty string. -/
theorem claim3_service_code_amended (parseDt : Option String → Option String)
    (t : Table) (hwf : t.Wf) (hne : t.isEmptyDf = false) :
    (∀ cells, t.canonCols.getCol "report_id" = some cells →
       (clean_tickets parseDt t).getCol "service_code"
         = some ((splitExpandLast (cells.map (fun c => pyStrip (astypeStr c)))).map some)
       ∧ (∀ i, i < cells.length →
           (splitExpandLast (cells.map (fun c => pyStrip (astypeStr c)))).getD i ""
             = (if (pySplit ((cells.map (fun c => pyStrip (astypeStr c))).getD i "") '-').length
                   = maxSegs (cells.map (fun c => pyStrip (astypeStr c)))
                then (pySplit ((cells.map (fun c => pyStrip (astypeStr c))).getD i "") '-').getLastD ""
                else "")))
    ∧ (t.canonCols.getCol "report_id" = none →
       (clean_tickets parseDt t).getCol "service_code"
         = some (List.replicate t.rows.length (some ""))) := by
  have hwf0 : t.canonCols.Wf := Table.canonCols_wf hwf
  obtain ⟨hlenP, hwfP, hgetP⟩ := parseFold_invariant parseDt timeCols t.canonCols hwf0
  have hwfF : (fillOperator (timeCols.foldl (parseStep parseDt) t.canonCols)).Wf :=
    fillOperator_wf hwfP
  have hrid : (fillOperator (timeCols.foldl (parseStep parseDt) t.canonCols)).getCol "report_id"
      = t.canonCols.getCol "report_id" := by
    rw [fillOperator_getCol_ne hwfP (by decide), hgetP "report_id" (by decide)]
  have hlenF : (fillOperator (timeCols.foldl (parseStep parseDt) t.canonCols)).rows.length
      = t.rows.length := by
    rw [fillOperator_rows_length]
    exact hlenP
  have hclean : (clean_tickets parseDt t).getCol "service_code"
      = (deriveServiceCode (fillOperator
          (timeCols.foldl (parseStep parseDt) t.canonCols))).getCol "service_code" := by
    rw [clean_tickets, if_neg (by simp [hne])]
    rfl
  have hsc := deriveServiceCode_getCol_sc hwfF
  rw [hrid, hlenF] at hsc
  constructor
  · intro cells hcells
    constructor
    · rw [hclean, hsc, hcells]
    · intro i hi
      exact splitExpandLast_getD _ i (by simpa using hi)
  · intro hnone
    rw [hclean, hsc, hnone]

theorem claim3_service_code_amended_witness :
    (∀ cells, tC3.canonCols.getCol "report_id" = some cells →
       (clean_tickets (fun v => v) tC3).getCol "service_code"
         = some ((splitExpandLast (cells.map (fun c => pyStrip (astypeStr c)))).map some)
       ∧ (∀ i, i < cells.length →
           (splitExpandLast (cells.map (fun c => pyStrip (astypeStr c)))).getD i ""
             = (if (pySplit ((cells.map (fun c => pyStrip (astypeStr c))).getD i "") '-').length
                   = maxSegs (cells.map (fun c => pyStrip (astypeStr c)))
                then (pySplit ((cells.map (fun c => pyStrip (astypeStr c))).getD i "") '-').getLastD ""
                else "")))
    ∧ (tC3.canonCols.getCol "report_id" = none →
       (clean_tickets (fun v => v) tC3).getCol "service_code"
         = some (List.replicate tC3.rows.length (some ""))) :=
  claim3_service_code_amended (fun v => v) tC3
    (by unfold Table.Wf; decide) (by decide)

/-- Claim C2. The enricher raises on this degenerate input: a ticket table
without `fault_type` together with a non-empty fault-type table makes
`df.get("fault_type", "")` return the plain string `""`, whose `.str`
access raises `AttributeError` instead of returning a degraded frame. -/
theorem claim2_enrich_raises_at_failing_input :
    enrich_tickets (some tTik2) none none none (some tFault2) none
      = Except.error "AttributeError: str object has no attribute str" := by
  rfl

/-- Claim C8 (counterexample). In the channel join the colliding ticket column
`extra` does NOT keep its name: pandas default suffixes rename it to
`extra_x` (and the incoming column to `extra_y`). -/
theorem claim8_suffix_counterexample :
    enrich_tickets (some tTik8) none (some tCh8) none none none
      = Except.ok ⟨["report_channel", "extra_x", "employee_id", "manager_id",
              "designation", "manager", "channel_key", "extra_y"],
             [[some "CH1", some "v", none, none, none, none, some "CH1", some "w"]]⟩
    ∧ "extra" ∉ (["report_channel", "extra_x", "employee_id", "manager_id",
              "designation", "manager", "channel_key", "extra_y"] : List String) := by
  constructor
  · rfl
  · decide

/-- Claim C8 (amended). Joins called with an empty left suffix (employee,
service-type, location) keep every ticket column name unchanged; the joins
called without a `suffixes` argument (channel, fault-type) apply the pandas
defaults, renaming a colliding ticket column with `_x` and the incoming
reference column with `_y`. -/
theorem claim8_merge_suffix_amended :
    (∀ (L : Table) (key : List (Option String)) (R : Table) (rOn rs : String)
        (dk : Bool) (out : Table),
        Table.mergeE L key R rOn "" rs dk = Except.ok out →
        out.cols.take L.cols.length = L.cols)
    ∧ (∀ (L : Table) (key : List (Option String)) (R : Table) (rOn : String)
        (out : Table),
        Table.mergeE L key R rOn "_x" "_y" false = Except.ok out →
        out.cols
          = L.cols.map (fun c => if R.cols.contains c then c ++ "_x" else c)
            ++ R.cols.map (fun c => if L.cols.contains c then c ++ "_y" else c)) := by
  constructor
  · intro L key R rOn rs dk out h
    rw [Table.mergeE] at h
    cases hj : R.colIdx rOn with
    | none =>
      rw [hj] at h
      exact absurd h (by simp)
    | some j =>
      rw [hj] at h
      simp only [Except.ok.injEq] at h
      subst h
      show (L.cols.map _ ++ _).take L.cols.length = L.cols
      have hmap : L.cols.map (fun c =>
          if (if dk then R.cols.eraseIdx j else R.cols).contains c
          then c ++ "" else c) = L.cols := by
        simp [String.append_empty]
      rw [hmap]
      exact List.take_left _ _
  · intro L key R rOn out h
    rw [Table.mergeE] at h
    cases hj : R.colIdx rOn with
    | none =>
      rw [hj] at h
      exact absurd h (by simp)
    | some j =>
      rw [hj] at h
      simp only [Except.ok.injEq] at h
      subst h
      rfl

theorem claim8_merge_suffix_amended_witness :
    (⟨["a", "k"], [[some "1", some "1"]]⟩ : Table).cols.take
        (⟨["a"], [[some "1"]]⟩ : Table).cols.length
      = (⟨["a"], [[some "1"]]⟩ : Table).cols :=
  claim8_merge_suffix_amended.1 ⟨["a"], [[some "1"]]⟩ [some "1"]
    ⟨["k"], [[some "1"]]⟩ "k" "_emp" false
    ⟨["a", "k"], [[some "1", some "1"]]⟩ (by rfl)
